import Mathlib

/-!
Verification development for the go-argo-lite repository: a shallow embedding
of the manifest applier (`internal/kubehandler`), the git poller
(`internal/gitpoller`), the per-target worker loop (`internal/worker`), the
encrypted catalog (`internal/storage`), and the HTTP control-plane handler
(`internal/server`), together with theorems settling the specification claims.

Go strings are modelled as `List Char` (`GoStr`); external libraries
(sigs.k8s.io/yaml, the Kubernetes clients, go-git, the crypto layer) appear as
explicit oracle parameters so each theorem states exactly which library
behaviour it assumes.
-/

set_option maxHeartbeats 1000000

abbrev GoStr := List Char

/-! ### Go string primitives used by `ApplyManifestFile`

`ApplyManifestFile` (internal/kubehandler) calls
`strings.Split(string(content), "---")` followed by `strings.TrimSpace` on
each part.  `splitDashes` is Go `strings.Split` specialised to the separator
`"---"`: it splits around every leftmost non-overlapping occurrence of the
substring. -/

/-- Model of Go `strings.Split(s, "---")`. -/
def splitDashes : GoStr → List GoStr
  | '-' :: '-' :: '-' :: rest => [] :: splitDashes rest
  | c :: rest =>
    match splitDashes rest with
    | h :: t => (c :: h) :: t
    | [] => [[c]]
  | [] => [[]]

/-- Re-join parts with the `---` separator (left inverse of `splitDashes`). -/
def joinDashes : List GoStr → GoStr
  | [] => []
  | [x] => x
  | x :: rest => x ++ '-' :: '-' :: '-' :: joinDashes rest

/-- Does the string contain `---` as a substring? -/
def hasTripleDash : GoStr → Bool
  | '-' :: '-' :: '-' :: _ => true
  | _ :: rest => hasTripleDash rest
  | [] => false

/-- Go `unicode.IsSpace` restricted to the ASCII whitespace characters
relevant to manifest files. -/
def isGoSpace (c : Char) : Bool :=
  c = ' ' || c = '\t' || c = '\n' || c = '\r' || c = '\x0b' || c = '\x0c'

def dropLeadingSpace : GoStr → GoStr
  | [] => []
  | c :: rest => if isGoSpace c then dropLeadingSpace rest else c :: rest

/-- Model of Go `strings.TrimSpace`. -/
def trimSpace (s : GoStr) : GoStr :=
  (dropLeadingSpace ((dropLeadingSpace s).reverse)).reverse

theorem splitDashes_ne_nil (s : GoStr) : splitDashes s ≠ [] := by
  induction s using splitDashes.induct with
  | case1 rest ih => simp [splitDashes]
  | case2 c rest hne h t heq ih => simp [splitDashes, heq, hne]
  | case3 c rest hne heq ih => simp [splitDashes, heq, hne]
  | case4 => simp [splitDashes]

theorem joinDashes_cons_cons (c : Char) (h : GoStr) (t : List GoStr) :
    joinDashes ((c :: h) :: t) = c :: joinDashes (h :: t) := by
  cases t with
  | nil => rfl
  | cons y ys => simp [joinDashes]

/-- The parts produced by `splitDashes`, re-joined with `---`, restore the
original string: the split is a partition of the byte stream. -/
theorem joinDashes_splitDashes (s : GoStr) : joinDashes (splitDashes s) = s := by
  induction s using splitDashes.induct with
  | case1 rest ih =>
    have h2 : joinDashes ([] :: splitDashes rest) =
        '-' :: '-' :: '-' :: joinDashes (splitDashes rest) := by
      have hne := splitDashes_ne_nil rest
      cases h : splitDashes rest with
      | nil => exact absurd h hne
      | cons x t => simp [joinDashes]
    simp [splitDashes, h2, ih]
  | case2 c rest hne h t heq ih =>
    rw [heq] at ih
    simp only [splitDashes, heq, hne]
    rw [joinDashes_cons_cons, ih]
  | case3 c rest hne heq ih => exact absurd heq (splitDashes_ne_nil rest)
  | case4 => rfl

theorem splitDashes_head_prefix (s : GoStr) :
    ∃ h t, splitDashes s = h :: t ∧ h <+: s := by
  induction s using splitDashes.induct with
  | case1 rest ih =>
    exact ⟨[], splitDashes rest, by simp [splitDashes], by simp⟩
  | case2 c rest hne h t heq ih =>
    obtain ⟨h', t', heq', hpre⟩ := ih
    rw [heq] at heq'
    injection heq' with e1 e2
    subst e1
    exact ⟨c :: h, t, by simp [splitDashes, heq, hne],
      List.cons_prefix_cons.mpr ⟨rfl, hpre⟩⟩
  | case3 c rest hne heq ih => exact absurd heq (splitDashes_ne_nil rest)
  | case4 => exact ⟨[], [], rfl, by simp⟩

theorem hasTripleDash_cons_iff (c : Char) (h : GoStr) :
    hasTripleDash (c :: h) = true ↔
      (c = '-' ∧ ∃ h2, h = '-' :: '-' :: h2) ∨ hasTripleDash h = true := by
  rw [hasTripleDash.eq_def]
  split
  · next x heq =>
    injection heq with e1 erest
    subst e1
    simp [erest]
  · next x rest hne heq =>
    injection heq with e1 erest
    subst e1; subst erest
    constructor
    · intro hr; exact Or.inr hr
    · intro hr
      rcases hr with ⟨rfl, h2, rfl⟩ | hr
      · exact (hne h2 rfl rfl).elim
      · exact hr
  · next heq => exact absurd heq (by simp)

/-- No part produced by `splitDashes` still contains the separator: the split
happens at every occurrence of `---`. -/
theorem splitDashes_no_triple (s : GoStr) :
    ∀ p ∈ splitDashes s, hasTripleDash p = false := by
  induction s using splitDashes.induct with
  | case1 rest ih =>
    intro p hp
    simp only [splitDashes, List.mem_cons] at hp
    rcases hp with rfl | hp
    · rfl
    · exact ih p hp
  | case2 c rest hne h t heq ih =>
    intro p hp
    rw [show splitDashes (c :: rest) = (c :: h) :: t by
      simp [splitDashes, heq, hne]] at hp
    rcases List.mem_cons.mp hp with rfl | hp
    · have hh : hasTripleDash h = false := ih h (by
        rw [heq]; exact List.mem_cons_self h t)
      rcases Bool.eq_false_or_eq_true (hasTripleDash (c :: h)) with htrue | hfalse
      · rcases (hasTripleDash_cons_iff c h).mp htrue with ⟨rfl, h2, rfl⟩ | hht
        · obtain ⟨h', t', heq', hpre⟩ := splitDashes_head_prefix rest
          rw [heq] at heq'
          injection heq' with e1 e2
          subst e1
          obtain ⟨tail, htail⟩ := hpre
          exact (hne (h2 ++ tail) rfl (by rw [← htail]; rfl)).elim
        · rw [hht] at hh; cases hh
      · exact hfalse
    · exact ih p (by rw [heq]; exact List.mem_cons_of_mem h hp)
  | case3 c rest hne heq ih => exact absurd heq (splitDashes_ne_nil rest)
  | case4 =>
    intro p hp
    simp only [splitDashes, List.mem_singleton] at hp
    subst hp
    rfl

/-! ### The manifest applier (`KubeHandler.ApplyManifestFile`)

External library behaviour (YAML→JSON conversion, unstructured JSON
unmarshalling, API discovery, the server-side-apply PATCH round-trip) is
abstracted into a `KubeEnv` of oracle functions; the control flow of
`ApplyManifestFile` and `findAPIResource` is translated from the source. -/

/-- The fields of a decoded `unstructured.Unstructured` object that
`ApplyManifestFile` consults. -/
structure KubeObj where
  apiVersion : String
  kind : String
  name : String
  ns : String
  deriving DecidableEq

/-- Model of `metav1.APIResource`: the discovered mapping for a kind. -/
structure APIResource where
  name : String
  namespaced : Bool
  kind : String
  deriving DecidableEq

/-- A server-side-apply PATCH request as issued by `ApplyManifestFile`
step 5 (`dr.Patch(..., types.ApplyPatchType, jsonData, PatchOptions{...})`). -/
structure PatchCall where
  resource : String
  ns : Option String
  name : String
  body : GoStr
  fieldManager : String
  force : Bool
  deriving DecidableEq

/-- Oracles for the external libraries used by `ApplyManifestFile`. -/
structure KubeEnv where
  /-- Oracle for `sigs.k8s.io/yaml.YAMLToJSON`. -/
  yamlToJSON : GoStr → Except String GoStr
  /-- Oracle for `unstructured.Unstructured.UnmarshalJSON`. -/
  unmarshalJSON : GoStr → Except String KubeObj
  /-- Oracle for `discovery.ServerResourcesForGroupVersion`, keyed by the
  group/version string -/
  serverResources : String → Except String (List APIResource)
  /-- outcome of the PATCH round-trip; `none` is success -/
  patchResult : PatchCall → Option String

/-- Model of `KubeHandler.findAPIResource`: discover the resource list for the
group/version and linearly search it for the object's kind. -/
def findAPIResource (env : KubeEnv) (groupVersion kind : String) :
    Except String APIResource :=
  match env.serverResources groupVersion with
  | .error e =>
    .error ("failed to discover server resources for GVG " ++ groupVersion ++ ": " ++ e)
  | .ok resources =>
    match resources.find? (fun r => r.kind = kind) with
    | some r => .ok r
    | none =>
      .error ("resource kind '" ++ kind ++ "' not found in group version '" ++
        groupVersion ++ "'")

/-- The per-document body of the `ApplyManifestFile` loop (steps 1–5 for one
candidate document): returns the recorded error, if any, and the PATCH
requests issued to the cluster (`i` is the zero-based index into the split,
so log/error messages use `i+1`). -/
def applyDoc (env : KubeEnv) (i : Nat) (doc : GoStr) :
    Option String × List PatchCall :=
  match env.yamlToJSON doc with
  | .error e =>
    (some ("doc #" ++ toString (i + 1) ++ ": YAML to JSON conversion failed: " ++ e), [])
  | .ok jsonData =>
    match env.unmarshalJSON jsonData with
    | .error e =>
      (some ("doc #" ++ toString (i + 1) ++ ": JSON unmarshalling failed: " ++ e), [])
    | .ok obj =>
      if obj.kind = "" || obj.apiVersion = "" then
        (some ("doc #" ++ toString (i + 1) ++ " (" ++ obj.name ++
          "): missing kind or apiVersion"), [])
      else
        -- `gvk.GroupVersion().String()` reconstructs the object's apiVersion
        match findAPIResource env obj.apiVersion obj.kind with
        | .error e =>
          (some ("doc #" ++ toString (i + 1) ++ " GVK " ++ obj.apiVersion ++ "/" ++
            obj.kind ++ ": API discovery failed: " ++ e), [])
        | .ok apiResource =>
          let nsChoice : Option String :=
            if apiResource.namespaced then
              some (if obj.ns = "" then "default" else obj.ns)
            else none
          let call : PatchCall :=
            { resource := apiResource.name, ns := nsChoice, name := obj.name,
              body := jsonData, fieldManager := "go-argo-lite", force := true }
          match env.patchResult call with
          | some e =>
            (some ("doc #" ++ toString (i + 1) ++ " (" ++ obj.kind ++ " " ++ obj.name ++
              "): apply failed: " ++ e), [call])
          | none => (none, [call])

/-- Everything observable about one `ApplyManifestFile` run: the collected
`applyErrors`, the PATCH requests issued, and the candidate documents that
were actually processed (index and trimmed text). -/
structure ApplyTrace where
  errors : List String
  patches : List PatchCall
  processed : List (Nat × GoStr)
  deriving DecidableEq

/-- The `for i, doc := range yamlDocs` loop of `ApplyManifestFile`: trim each
part, silently skip empty ones, process the rest in order. -/
def applyLoop (env : KubeEnv) : List (Nat × GoStr) → ApplyTrace
  | [] => ⟨[], [], []⟩
  | (i, doc) :: rest =>
    let d := trimSpace doc
    if d = [] then applyLoop env rest
    else
      let r := applyDoc env i d
      let t := applyLoop env rest
      ⟨r.1.toList ++ t.errors, r.2 ++ t.patches, (i, d) :: t.processed⟩

/-- The result of `ApplyManifestFile` on a file whose contents were read
successfully: the run's trace and the returned error (`none` = nil). -/
structure ApplyResult where
  trace : ApplyTrace
  err : Option String
  deriving DecidableEq

/-- Model of `KubeHandler.ApplyManifestFile`, after a successful `os.ReadFile`:
split on `---`, process each document, and fail iff any document recorded
an error. -/
def applyManifestFile (env : KubeEnv) (content : GoStr) : ApplyResult :=
  let t := applyLoop env (splitDashes content).enum
  { trace := t,
    err :=
      if t.errors.isEmpty then none
      else some ("encountered errors during manifest application:\n - " ++
        String.intercalate "\n - " t.errors) }

/-- The candidate documents of a file: every part of the `---` split that is
non-empty after trimming, paired with its zero-based split index. -/
def candidateDocs (content : GoStr) : List (Nat × GoStr) :=
  ((splitDashes content).enum.map (fun p => (p.1, trimSpace p.2))).filter
    (fun p => p.2 ≠ [])

theorem applyLoop_processed (env : KubeEnv) (l : List (Nat × GoStr)) :
    (applyLoop env l).processed =
      (l.map (fun p => (p.1, trimSpace p.2))).filter (fun p => p.2 ≠ []) := by
  induction l with
  | nil => rfl
  | cons p rest ih =>
    obtain ⟨i, doc⟩ := p
    by_cases hd : trimSpace doc = []
    · simp [applyLoop, hd, ih]
    · simp [applyLoop, hd, ih]

theorem applyLoop_patches (env : KubeEnv) (l : List (Nat × GoStr)) :
    (applyLoop env l).patches =
      ((l.map (fun p => (p.1, trimSpace p.2))).filter (fun p => p.2 ≠ [])).flatMap
        (fun p => (applyDoc env p.1 p.2).2) := by
  induction l with
  | nil => rfl
  | cons p rest ih =>
    obtain ⟨i, doc⟩ := p
    by_cases hd : trimSpace doc = []
    · simp [applyLoop, hd, ih]
    · simp [applyLoop, hd, ih]

theorem applyLoop_errors_nil_iff (env : KubeEnv) (l : List (Nat × GoStr)) :
    (applyLoop env l).errors = [] ↔
      ∀ p ∈ (l.map (fun p => (p.1, trimSpace p.2))).filter (fun p => p.2 ≠ []),
        (applyDoc env p.1 p.2).1 = none := by
  induction l with
  | nil => simp [applyLoop]
  | cons p rest ih =>
    obtain ⟨i, doc⟩ := p
    by_cases hd : trimSpace doc = []
    · simp [applyLoop, hd, ih]
    · cases he : (applyDoc env i (trimSpace doc)).1 with
      | some e => simp [applyLoop, hd, ih, he]
      | none => simp [applyLoop, hd, ih, he]

/-! ### Line-based splitting (what claim C1 asserts)

Claim C1 states that the byte stream is partitioned "on lines equal to
`---`".  The following definitions formalise that reading so it can be
compared with the `strings.Split`-based candidate computation. -/

/-- Split a string into its lines (around each `\n`). -/
def splitNl : GoStr → List GoStr
  | '\n' :: rest => [] :: splitNl rest
  | c :: rest =>
    match splitNl rest with
    | h :: t => (c :: h) :: t
    | [] => [[c]]
  | [] => [[]]

/-- Re-join lines with `\n`. -/
def joinNl : List GoStr → GoStr
  | [] => []
  | [x] => x
  | x :: rest => x ++ '\n' :: joinNl rest

/-- Group a list of lines into segments separated by lines equal to `---`. -/
def groupSepLines : List GoStr → List (List GoStr)
  | [] => [[]]
  | l :: rest =>
    if l = ['-', '-', '-'] then [] :: groupSepLines rest
    else
      match groupSepLines rest with
      | g :: gs => (l :: g) :: gs
      | [] => [[l]]

/-- Candidate documents under claim C1's reading: partition on lines equal to
`---`, trim each partition, keep the non-empty ones. -/
def candidateDocsByLine (content : GoStr) : List GoStr :=
  ((groupSepLines (splitNl content)).map (fun g => trimSpace (joinNl g))).filter
    (fun d => d ≠ [])

/-- C1 counterexample: on the file contents `a---b` (a single line containing
`---` in its middle) the code's `strings.Split`-based partition yields the two
candidate documents `a` and `b`, whereas partitioning on lines equal to `---`
yields the single candidate `a---b`; the claim's assertion that a `---`
occurring inside a line does not start a new document is false for the code. -/
theorem spec_C1_counterexample :
    (candidateDocs ['a', '-', '-', '-', 'b']).map Prod.snd ≠
        candidateDocsByLine ['a', '-', '-', '-', 'b'] ∧
    (candidateDocs ['a', '-', '-', '-', 'b']).map Prod.snd = [['a'], ['b']] ∧
    candidateDocsByLine ['a', '-', '-', '-', 'b'] = [['a', '-', '-', '-', 'b']] := by
  decide

/-- C1 (amended): the apply-file operation partitions the file's byte stream
into candidate documents at every occurrence of the substring `---` (also
mid-line): the parts re-joined with `---` restore the byte stream, no part
still contains `---`, and the documents actually processed are exactly the
parts that are non-empty after trimming surrounding whitespace — empty parts
are silently skipped. -/
theorem spec_C1_partition (env : KubeEnv) (content : GoStr) :
    joinDashes (splitDashes content) = content
    ∧ (∀ p ∈ splitDashes content, hasTripleDash p = false)
    ∧ (applyManifestFile env content).trace.processed = candidateDocs content := by
  refine ⟨joinDashes_splitDashes content, splitDashes_no_triple content, ?_⟩
  rw [applyManifestFile, applyLoop_processed, candidateDocs]

/-- C3: `ApplyManifestFile` returns an aggregate error exactly when at least
one candidate document recorded an error, and a failing document never stops
the later documents of the same file: the processed documents are always all
the candidates, and the PATCH requests issued are the concatenation of every
candidate's requests, failures notwithstanding. -/
theorem spec_C3_aggregate (env : KubeEnv) (content : GoStr) :
    ((applyManifestFile env content).err.isSome ↔
      ∃ p ∈ candidateDocs content, (applyDoc env p.1 p.2).1.isSome)
    ∧ (applyManifestFile env content).trace.processed = candidateDocs content
    ∧ (applyManifestFile env content).trace.patches =
        (candidateDocs content).flatMap (fun p => (applyDoc env p.1 p.2).2) := by
  refine ⟨?_, ?_, ?_⟩
  · have herr : (applyManifestFile env content).err.isSome ↔
        ¬(applyLoop env (splitDashes content).enum).errors = [] := by
      rw [applyManifestFile]
      by_cases h : (applyLoop env (splitDashes content).enum).errors = [] <;> simp [h]
    rw [herr, applyLoop_errors_nil_iff]
    rw [show ((splitDashes content).enum.map (fun p => (p.1, trimSpace p.2))).filter
        (fun p => p.2 ≠ []) = candidateDocs content from rfl]
    constructor
    · intro h
      push_neg at h
      obtain ⟨p, hp, hne⟩ := h
      refine ⟨p, hp, ?_⟩
      cases he : (applyDoc env p.1 p.2).1 with
      | none => exact absurd he hne
      | some e => simp
    · rintro ⟨p, hp, hsome⟩ hall
      rw [hall p hp] at hsome
      simp at hsome
  · rw [applyManifestFile, applyLoop_processed, candidateDocs]
  · rw [applyManifestFile, applyLoop_patches, candidateDocs]

theorem applyLoop_errors (env : KubeEnv) (l : List (Nat × GoStr)) :
    (applyLoop env l).errors =
      ((l.map (fun p => (p.1, trimSpace p.2))).filter (fun p => p.2 ≠ [])).flatMap
        (fun p => (applyDoc env p.1 p.2).1.toList) := by
  induction l with
  | nil => rfl
  | cons p rest ih =>
    obtain ⟨i, doc⟩ := p
    by_cases hd : trimSpace doc = []
    · simp [applyLoop, hd, ih]
    · simp [applyLoop, hd, ih]

theorem applyManifestFile_err_isSome_iff (env : KubeEnv) (content : GoStr) :
    (applyManifestFile env content).err.isSome ↔
      (applyManifestFile env content).trace.errors ≠ [] := by
  rw [applyManifestFile]
  by_cases h : (applyLoop env (splitDashes content).enum).errors = [] <;> simp [h]

/-! ### Claim C6: comment-only files -/

/-- The file contents `# hello\n---\n# world` of the comment-only scenario. -/
def c6Content : GoStr :=
  ['#', ' ', 'h', 'e', 'l', 'l', 'o', '\n', '-', '-', '-', '\n',
   '#', ' ', 'w', 'o', 'r', 'l', 'd']

/-- The first candidate document of `c6Content` after trimming. -/
def c6Doc1 : GoStr := ['#', ' ', 'h', 'e', 'l', 'l', 'o']

/-- The second candidate document of `c6Content` after trimming. -/
def c6Doc2 : GoStr := ['#', ' ', 'w', 'o', 'r', 'l', 'd']

/-- C6: applying a file whose two documents are YAML comments only.  The
hypotheses state the documented behaviour of the external YAML/JSON libraries
(`YAMLToJSON` turns a comment-only document into `null`, and unmarshalling
`null` into an `Unstructured` fails with a missing-Kind error).  Then the
operation returns an aggregate error recording a deserialization failure for
each of the two documents, and no PATCH request is ever issued. -/
theorem spec_C6_comment_only (env : KubeEnv) (nullJson : GoStr) (e : String)
    (h1 : env.yamlToJSON c6Doc1 = .ok nullJson)
    (h2 : env.yamlToJSON c6Doc2 = .ok nullJson)
    (h3 : env.unmarshalJSON nullJson = .error e) :
    (applyManifestFile env c6Content).err.isSome = true
    ∧ (applyManifestFile env c6Content).trace.errors =
        ["doc #1: JSON unmarshalling failed: " ++ e,
         "doc #2: JSON unmarshalling failed: " ++ e]
    ∧ (applyManifestFile env c6Content).trace.patches = [] := by
  have hcand : ((splitDashes c6Content).enum.map (fun p => (p.1, trimSpace p.2))).filter
      (fun p => p.2 ≠ []) = [(0, c6Doc1), (1, c6Doc2)] := by decide
  have hdoc1 : applyDoc env 0 c6Doc1 =
      (some ("doc #1: JSON unmarshalling failed: " ++ e), []) := by
    simp only [applyDoc, h1, h3]
    rfl
  have hdoc2 : applyDoc env 1 c6Doc2 =
      (some ("doc #2: JSON unmarshalling failed: " ++ e), []) := by
    simp only [applyDoc, h2, h3]
    rfl
  have htrace : (applyManifestFile env c6Content).trace =
      applyLoop env (splitDashes c6Content).enum := rfl
  have herrs : (applyManifestFile env c6Content).trace.errors =
      ["doc #1: JSON unmarshalling failed: " ++ e,
       "doc #2: JSON unmarshalling failed: " ++ e] := by
    rw [htrace, applyLoop_errors, hcand]
    simp [hdoc1, hdoc2]
  refine ⟨?_, herrs, ?_⟩
  · rw [applyManifestFile_err_isSome_iff] at *
    rw [herrs]
    simp
  · rw [htrace, applyLoop_patches, hcand]
    simp [hdoc1, hdoc2]

/-- Witness environment for C6: concrete oracles with the documented
library behaviour. -/
def c6Env : KubeEnv :=
  { yamlToJSON := fun _ => .ok ['n', 'u', 'l', 'l'],
    unmarshalJSON := fun _ => .error "Object Kind is missing",
    serverResources := fun _ => .ok [],
    patchResult := fun _ => none }

theorem spec_C6_comment_only_witness :
    (applyManifestFile c6Env c6Content).err.isSome = true
    ∧ (applyManifestFile c6Env c6Content).trace.errors =
        ["doc #1: JSON unmarshalling failed: " ++ "Object Kind is missing",
         "doc #2: JSON unmarshalling failed: " ++ "Object Kind is missing"]
    ∧ (applyManifestFile c6Env c6Content).trace.patches = [] :=
  spec_C6_comment_only c6Env ['n', 'u', 'l', 'l'] "Object Kind is missing" rfl rfl rfl

/-! ### The git poller (`GitPoller.Poll`) and the worker tick

`Poll` is modelled as a state transformer over the poller's
`lastCommitHash` field (empty string until first recorded, as in the Go
struct).  One tick's external interactions — the fetch+reset outcome, HEAD
resolution, and the manifest walk — form a `TickEnv` of oracles. -/

/-- The mutable poller state: `GitPoller.lastCommitHash` (zero value `""`
until the first hash is recorded). -/
structure PollerState where
  lastCommitHash : String
  deriving DecidableEq

/-- External outcomes for one `Poll` call: `FetchLatest` (`none` = success),
`GetCurrentCommitHash`, and `GetManifestFiles`. -/
structure TickEnv where
  fetch : Option String
  head : Except String String
  listFiles : Except String (List String)

/-- The four return values of `GitPoller.Poll`. -/
structure PollResult where
  changed : Bool
  commitHash : String
  manifestFiles : List String
  err : Option String
  deriving DecidableEq

/-- Model of `GitPoller.Poll`: fetch, read HEAD; on the first poll record the hash and
report a change; afterwards record and report a change only when the hash
differs; list manifests only when a change is being reported.  Note that the
hash is recorded before `GetManifestFiles` runs, and that the initial-poll
branch returns `changed = false` when listing fails. -/
def poll (gp : PollerState) (env : TickEnv) : PollerState × PollResult :=
  match env.fetch with
  | some e => (gp, ⟨false, "", [], some ("failed during fetch: " ++ e)⟩)
  | none =>
    match env.head with
    | .error e =>
      (gp, ⟨false, "", [], some ("failed to get current commit hash: " ++ e)⟩)
    | .ok newCommitHash =>
      if gp.lastCommitHash = "" then
        let gp' : PollerState := ⟨newCommitHash⟩
        match env.listFiles with
        | .error e =>
          (gp', ⟨false, newCommitHash, [],
            some ("failed to list manifest files on initial poll: " ++ e)⟩)
        | .ok files => (gp', ⟨true, newCommitHash, files, none⟩)
      else if newCommitHash ≠ gp.lastCommitHash then
        let gp' : PollerState := ⟨newCommitHash⟩
        match env.listFiles with
        | .error e =>
          (gp', ⟨true, newCommitHash, [],
            some ("new commit detected, but failed to list manifest files: " ++ e)⟩)
        | .ok files => (gp', ⟨true, newCommitHash, files, none⟩)
      else (gp, ⟨false, gp.lastCommitHash, [], none⟩)

/-- One iteration of the worker's polling loop (`manageSyncTarget`): poll; on
error skip to the next tick; on a reported change run one apply pass over the
returned manifest files.  The second component is `some files` exactly when
an apply pass over `files` is attempted. -/
def workerTick (gp : PollerState) (env : TickEnv) : PollerState × Option (List String) :=
  let (gp', res) := poll gp env
  if res.err.isSome then (gp', none)
  else if res.changed then (gp', some res.manifestFiles)
  else (gp', none)

/-- First tick of the C2 counterexample: fetch and HEAD succeed at hash `h1`
but the manifest walk fails. -/
def c2Env1 : TickEnv :=
  { fetch := none, head := .ok "h1", listFiles := .error "walk failed" }

/-- Second tick of the C2 counterexample: the remote is unchanged and the
walk now succeeds. -/
def c2Env2 : TickEnv :=
  { fetch := none, head := .ok "h1", listFiles := .ok [] }

/-- C2 counterexample: starting from a fresh poller, a first poll whose
manifest listing fails is unsuccessful but records the hash; the next poll is
the first successful one yet reports no change — contradicting the claim that
the first successful poll reports a change regardless of repository content. -/
theorem spec_C2_counterexample :
    (poll ⟨""⟩ c2Env1).2.err.isSome = true
    ∧ (poll (poll ⟨""⟩ c2Env1).1 c2Env2).2.err = none
    ∧ (poll (poll ⟨""⟩ c2Env1).1 c2Env2).2.changed = false := by
  refine ⟨rfl, rfl, rfl⟩

/-- C2 (amended): a successful poll (fetch, HEAD and listing all succeed)
reports a change iff the stored last-observed hash at its start is empty or
differs from the current HEAD hash — in particular the first poll of a fresh
poller reports a change, unless an earlier failed poll already recorded the
hash; when no change is reported the worker attempts no manifest apply, and
when a change is reported the worker attempts exactly one apply pass over the
returned files for that tick. -/
theorem spec_C2_change_detection (gp : PollerState) (env : TickEnv)
    (h : String) (fs : List String)
    (hfetch : env.fetch = none) (hhead : env.head = .ok h)
    (hlist : env.listFiles = .ok fs) :
    (poll gp env).2.err = none
    ∧ ((poll gp env).2.changed = true ↔
        (gp.lastCommitHash = "" ∨ h ≠ gp.lastCommitHash))
    ∧ (workerTick gp env).2 =
        (if gp.lastCommitHash = "" ∨ h ≠ gp.lastCommitHash then some fs else none) := by
  obtain ⟨f, hd, lf⟩ := env
  obtain ⟨last⟩ := gp
  simp only at hfetch hhead hlist
  subst hfetch; subst hhead; subst hlist
  by_cases h0 : last = ""
  · subst h0
    simp [poll, workerTick]
  · by_cases h1 : h = last
    · subst h1
      simp [poll, workerTick, h0]
    · simp [poll, workerTick, h0, h1]

theorem spec_C2_change_detection_witness :
    ((poll ⟨"old"⟩ ⟨none, .ok "new", .ok ["a.yaml"]⟩).2.err = none
      ∧ ((poll ⟨"old"⟩ ⟨none, .ok "new", .ok ["a.yaml"]⟩).2.changed = true ↔
          ((⟨"old"⟩ : PollerState).lastCommitHash = "" ∨
            "new" ≠ (⟨"old"⟩ : PollerState).lastCommitHash))
      ∧ (workerTick ⟨"old"⟩ ⟨none, .ok "new", .ok ["a.yaml"]⟩).2 =
          (if (⟨"old"⟩ : PollerState).lastCommitHash = "" ∨
              "new" ≠ (⟨"old"⟩ : PollerState).lastCommitHash
            then some ["a.yaml"] else none)) :=
  spec_C2_change_detection ⟨"old"⟩ ⟨none, .ok "new", .ok ["a.yaml"]⟩
    "new" ["a.yaml"] rfl rfl rfl

/-- C10: when a poll detects a new commit (or is the very first), the hash is
recorded before the manifest walk; if the walk fails the poll returns an
error with the hash already stored, the worker attempts no apply for that
tick, and a later tick whose fetch succeeds with the same HEAD hash reports
no change and applies nothing — the commit's manifests are skipped until a
different commit appears. -/
theorem spec_C10_hash_recorded_before_list (gp : PollerState)
    (env env2 : TickEnv) (h e : String)
    (hne : h ≠ "")
    (hfetch : env.fetch = none) (hhead : env.head = .ok h)
    (hlist : env.listFiles = .error e)
    (hch : gp.lastCommitHash = "" ∨ h ≠ gp.lastCommitHash)
    (gfetch : env2.fetch = none) (ghead : env2.head = .ok h) :
    (poll gp env).1.lastCommitHash = h
    ∧ (poll gp env).2.err.isSome = true
    ∧ (workerTick gp env).2 = none
    ∧ (poll (poll gp env).1 env2).2.changed = false
    ∧ (workerTick (poll gp env).1 env2).2 = none := by
  obtain ⟨f, hd, lf⟩ := env
  obtain ⟨f2, hd2, lf2⟩ := env2
  obtain ⟨last⟩ := gp
  simp only at hfetch hhead hlist gfetch ghead
  subst hfetch; subst hhead; subst hlist; subst gfetch; subst ghead
  rcases hch with h0 | h1
  · subst h0
    simp [poll, workerTick, hne]
  · by_cases h0 : last = ""
    · subst h0
      simp [poll, workerTick, hne]
    · simp [poll, workerTick, h0, h1, hne]

theorem spec_C10_hash_recorded_before_list_witness :
    ((poll ⟨""⟩ ⟨none, .ok "h1", .error "missing dir"⟩).1.lastCommitHash = "h1"
      ∧ (poll ⟨""⟩ ⟨none, .ok "h1", .error "missing dir"⟩).2.err.isSome = true
      ∧ (workerTick ⟨""⟩ ⟨none, .ok "h1", .error "missing dir"⟩).2 = none
      ∧ (poll (poll ⟨""⟩ ⟨none, .ok "h1", .error "missing dir"⟩).1
          ⟨none, .ok "h1", .ok ["a.yaml"]⟩).2.changed = false
      ∧ (workerTick (poll ⟨""⟩ ⟨none, .ok "h1", .error "missing dir"⟩).1
          ⟨none, .ok "h1", .ok ["a.yaml"]⟩).2 = none) :=
  spec_C10_hash_recorded_before_list ⟨""⟩ ⟨none, .ok "h1", .error "missing dir"⟩
    ⟨none, .ok "h1", .ok ["a.yaml"]⟩ "h1" "missing dir" (by decide) rfl rfl rfl
    (Or.inl rfl) rfl rfl

/-! ### The encrypted catalog (`EncryptedFileStorage`)

`LoadSyncTargets` and `SaveSyncTarget` from internal/storage.  File reading,
AES decryption/encryption and JSON (un)marshalling are oracles; bytes are
`List Nat`. -/

/-- Model of `interfaces.SyncTarget`. -/
structure SyncTarget where
  ID : String
  RepoURL : String
  RepoBranch : String
  KubeConfigContent : String
  PollIntervalSeconds : Int
  GitCredentials : String
  ManifestPath : String
  deriving DecidableEq

/-- The error kinds `LoadSyncTargets` can return. -/
inductive LoadErr where
  | readErr (msg : String)
  | decryptErr (msg : String)
  | formatErr (msg : String)
  deriving DecidableEq

/-- Outcome of `os.ReadFile` on the storage file. -/
inductive ReadResult where
  | missingFile
  | readFail (msg : String)
  | fileContent (data : List Nat)
  deriving DecidableEq

/-- Model of `EncryptedFileStorage.LoadSyncTargets`: missing or empty file yields the
empty list with no error; otherwise decrypt then JSON-decode, surfacing each
failure as its own error kind. -/
def loadSyncTargets (read : ReadResult)
    (decrypt : List Nat → Except String (List Nat))
    (unmarshal : List Nat → Except String (List SyncTarget)) :
    Except LoadErr (List SyncTarget) :=
  match read with
  | .missingFile => .ok []
  | .readFail e => .error (.readErr ("failed to read storage file: " ++ e))
  | .fileContent d =>
    if d.length = 0 then .ok []
    else
      match decrypt d with
      | .error e => .error (.decryptErr ("failed to decrypt data: " ++ e))
      | .ok plain =>
        match unmarshal plain with
        | .error e =>
          .error (.formatErr ("failed to unmarshal sync targets from JSON: " ++ e))
        | .ok ts => .ok ts

/-- Result of `os.IsNotExist` applied to an error returned by `LoadSyncTargets`:
always false, because `LoadSyncTargets` wraps every error with
`fmt.Errorf("...: %w", err)` and `os.IsNotExist` does not unwrap wrapped
errors. -/
def isNotExistErr (_ : LoadErr) : Bool := false

/-- The duplicate-check loop of `SaveSyncTarget`: replace the first entry
with the same `ID` in place, otherwise append at the end. -/
def upsertTarget : List SyncTarget → SyncTarget → List SyncTarget
  | [], t => [t]
  | x :: rest, t => if x.ID = t.ID then t :: rest else x :: upsertTarget rest t

/-- Model of `EncryptedFileStorage.SaveSyncTarget`: load the current list (on a load
error other than not-exist with no targets recovered, the code logs and
proceeds with the empty list — the commented-out propagation branch is dead
because `isNotExistErr` is always false and errors come with `nil`
targets); upsert; marshal+encrypt+write (failures of that pipeline are the
`writeErr` oracle).  On success the `.ok` payload is the list written to the
file, which overwrites the previous contents. -/
def saveSyncTarget (read : ReadResult)
    (decrypt : List Nat → Except String (List Nat))
    (unmarshal : List Nat → Except String (List SyncTarget))
    (writeErr : Option String) (target : SyncTarget) :
    Except String (List SyncTarget) :=
  let loadRes : List SyncTarget × Option LoadErr :=
    match loadSyncTargets read decrypt unmarshal with
    | .ok ts => (ts, none)
    | .error e => ([], some e)
  let write : List SyncTarget → Except String (List SyncTarget) := fun ts =>
    match writeErr with
    | some e => .error e
    | none => .ok ts
  match loadRes.2 with
  | some e =>
    if !isNotExistErr e && loadRes.1.length = 0 then
      -- "Error loading existing sync targets during save ...
      --  Attempting to overwrite with new target." — log and proceed
      write (upsertTarget loadRes.1 target)
    else
      .error "failed to load existing sync targets before saving"
  | none => write (upsertTarget loadRes.1 target)

/-- C8: catalog load — missing file and zero-length file give the empty
list without error; a non-empty file whose decryption fails gives a
decryption error; a non-empty file that decrypts but fails to JSON-decode
gives a format error. -/
theorem spec_C8_load_cases
    (decrypt : List Nat → Except String (List Nat))
    (unmarshal : List Nat → Except String (List SyncTarget)) :
    loadSyncTargets .missingFile decrypt unmarshal = .ok []
    ∧ loadSyncTargets (.fileContent []) decrypt unmarshal = .ok []
    ∧ (∀ d e, d ≠ [] → decrypt d = .error e →
        loadSyncTargets (.fileContent d) decrypt unmarshal =
          .error (.decryptErr ("failed to decrypt data: " ++ e)))
    ∧ (∀ d p e, d ≠ [] → decrypt d = .ok p → unmarshal p = .error e →
        loadSyncTargets (.fileContent d) decrypt unmarshal =
          .error (.formatErr ("failed to unmarshal sync targets from JSON: " ++ e))) := by
  refine ⟨rfl, rfl, ?_, ?_⟩
  · intro d e hd hdec
    simp [loadSyncTargets, List.length_eq_zero, hd, hdec]
  · intro d p e hd hdec hum
    simp [loadSyncTargets, List.length_eq_zero, hd, hdec, hum]

/-- A decryption oracle that always fails. -/
def decryptFail : List Nat → Except String (List Nat) := fun _ => .error "bad key"

/-- A decryption oracle that succeeds with empty plaintext. -/
def decryptNil : List Nat → Except String (List Nat) := fun _ => .ok []

/-- An unmarshalling oracle that always fails. -/
def unmarshalFail : List Nat → Except String (List SyncTarget) := fun _ => .error "bad json"

theorem spec_C8_load_cases_witness :
    loadSyncTargets .missingFile decryptFail unmarshalFail = .ok []
    ∧ loadSyncTargets (.fileContent [1]) decryptFail unmarshalFail =
        .error (.decryptErr ("failed to decrypt data: " ++ "bad key"))
    ∧ loadSyncTargets (.fileContent [1]) decryptNil unmarshalFail =
        .error (.formatErr ("failed to unmarshal sync targets from JSON: " ++ "bad json")) :=
  ⟨(spec_C8_load_cases decryptFail unmarshalFail).1,
   (spec_C8_load_cases decryptFail unmarshalFail).2.2.1 [1] "bad key" (by decide) rfl,
   (spec_C8_load_cases decryptNil unmarshalFail).2.2.2 [1] [] "bad json" (by decide) rfl rfl⟩

/-- A sample persisted target. -/
def sampleTarget : SyncTarget :=
  ⟨"id-1", "https://git.example/x.git", "main", "kubeconfig: apiVersion v1", 60, "", "k8s"⟩

/-- C4 counterexample: the catalog file is non-empty (`[1]`) and decryption
fails, yet `SaveSyncTarget` succeeds and overwrites the file with the list
containing only the new target — it neither fails with the decryption error
nor leaves the undecryptable contents in place. -/
theorem spec_C4_counterexample :
    saveSyncTarget (.fileContent [1]) decryptFail unmarshalFail none sampleTarget =
      .ok [sampleTarget] := rfl

/-- C4 (amended): if the persisted catalog file exists, is non-empty, and
cannot be decrypted, save-one does not fail: the load error is logged, the
upsert proceeds from the empty list, and (when encryption and the write
succeed) the catalog file is overwritten with a list holding only the
argument target — the undecryptable contents are lost. -/
theorem spec_C4_decrypt_error_overwrites
    (decrypt : List Nat → Except String (List Nat))
    (unmarshal : List Nat → Except String (List SyncTarget))
    (d : List Nat) (e : String) (target : SyncTarget)
    (hd : d ≠ []) (hdec : decrypt d = .error e) :
    saveSyncTarget (.fileContent d) decrypt unmarshal none target = .ok [target] := by
  have hload : loadSyncTargets (.fileContent d) decrypt unmarshal =
      .error (.decryptErr ("failed to decrypt data: " ++ e)) := by
    simp [loadSyncTargets, List.length_eq_zero, hd, hdec]
  simp [saveSyncTarget, hload, isNotExistErr, upsertTarget]

theorem spec_C4_decrypt_error_overwrites_witness :
    saveSyncTarget (.fileContent [1, 2]) decryptFail unmarshalFail none sampleTarget =
      .ok [sampleTarget] :=
  spec_C4_decrypt_error_overwrites decryptFail unmarshalFail [1, 2] "bad key"
    sampleTarget (by decide) rfl

theorem upsertTarget_eq (ts : List SyncTarget) (t : SyncTarget)
    (hnodup : (ts.map SyncTarget.ID).Nodup) :
    upsertTarget ts t =
      if ts.any (fun x => x.ID = t.ID)
      then ts.map (fun x => if x.ID = t.ID then t else x)
      else ts ++ [t] := by
  induction ts with
  | nil => simp [upsertTarget]
  | cons x rest ih =>
    rw [List.map_cons, List.nodup_cons] at hnodup
    obtain ⟨hx, hrest⟩ := hnodup
    by_cases hxt : x.ID = t.ID
    · have hmap : rest.map (fun y => if y.ID = t.ID then t else y) = rest := by
        rw [show rest = rest.map id by simp]
        rw [List.map_map]
        refine List.map_congr_left ?_
        intro y hy
        have : y.ID ≠ t.ID := by
          rw [← hxt]
          intro hcontra
          exact hx (by rw [← hcontra]; exact List.mem_map_of_mem SyncTarget.ID hy)
        simp [this]
      simp [upsertTarget, hxt, hmap]
    · rw [show upsertTarget (x :: rest) t = x :: upsertTarget rest t by
        simp [upsertTarget, hxt]]
      rw [ih hrest]
      by_cases hany : rest.any (fun y => y.ID = t.ID)
      · simp [hany, hxt]
      · simp [hany, hxt]

/-- C9: save-one is an upsert keyed by `ID`: on a successfully loaded list
with pairwise-distinct ids, the entry sharing the argument's id (if any) is
replaced in place at its position with every other entry unchanged, and
otherwise the argument is appended at the end; the resulting list is what is
written back. -/
theorem spec_C9_upsert (read : ReadResult)
    (decrypt : List Nat → Except String (List Nat))
    (unmarshal : List Nat → Except String (List SyncTarget))
    (ts : List SyncTarget) (t : SyncTarget)
    (hload : loadSyncTargets read decrypt unmarshal = .ok ts)
    (hnodup : (ts.map SyncTarget.ID).Nodup) :
    saveSyncTarget read decrypt unmarshal none t =
      .ok (if ts.any (fun x => x.ID = t.ID)
           then ts.map (fun x => if x.ID = t.ID then t else x)
           else ts ++ [t]) := by
  rw [← upsertTarget_eq ts t hnodup]
  simp [saveSyncTarget, hload]

/-- A second persisted target, distinct id from `sampleTarget`. -/
def sampleTarget2 : SyncTarget :=
  ⟨"id-2", "https://git.example/y.git", "dev", "kubeconfig: apiVersion v1", 30, "", "deploy"⟩

/-- An update of `sampleTarget2`: same id, different branch. -/
def sampleTarget2' : SyncTarget :=
  ⟨"id-2", "https://git.example/y.git", "main", "kubeconfig: apiVersion v1", 30, "", "deploy"⟩

/-- An unmarshalling oracle returning the two sample targets. -/
def unmarshalTwo : List Nat → Except String (List SyncTarget) :=
  fun _ => .ok [sampleTarget, sampleTarget2]

theorem spec_C9_upsert_witness :
    saveSyncTarget (.fileContent [1]) decryptNil unmarshalTwo none sampleTarget2' =
      .ok (if [sampleTarget, sampleTarget2].any (fun x => x.ID = sampleTarget2'.ID)
           then [sampleTarget, sampleTarget2].map
              (fun x => if x.ID = sampleTarget2'.ID then sampleTarget2' else x)
           else [sampleTarget, sampleTarget2] ++ [sampleTarget2']) :=
  spec_C9_upsert (.fileContent [1]) decryptNil unmarshalTwo
    [sampleTarget, sampleTarget2] sampleTarget2' rfl (by decide)

/-! ### The control-plane façade (`handleCreateSyncTarget`)

The handler is modelled after a successful JSON body decode: validation in
source order, normalization of the poll interval, id assignment, then
persistence and worker registration (their outcomes are oracles).  The
second component of the result is `some t` exactly when
`dataStorage.SaveSyncTarget(t)` was invoked. -/

/-- An HTTP response: status code and body text (for `http.Error` responses
the body is the plain-text reason). -/
structure HttpResponse where
  status : Nat
  body : String
  deriving DecidableEq

/-- Model of `Server.handleCreateSyncTarget` after a successful body decode. -/
def handleCreateSyncTarget (t : SyncTarget) (genId : String)
    (saveErr : Option String) (addErr : Option String) :
    HttpResponse × Option SyncTarget :=
  if t.RepoURL = "" then (⟨400, "RepoURL is required"⟩, none)
  else if t.RepoBranch = "" then (⟨400, "RepoBranch is required"⟩, none)
  else if t.KubeConfigContent = "" then (⟨400, "KubeConfigContent is required"⟩, none)
  else if t.ManifestPath = "" then (⟨400, "ManifestPath is required"⟩, none)
  else
    let t1 := if t.PollIntervalSeconds ≤ 0 then { t with PollIntervalSeconds := 60 } else t
    let t2 := { t1 with ID := genId }
    match saveErr with
    | some e => (⟨500, "Failed to save sync target: " ++ e⟩, some t2)
    | none =>
      match addErr with
      | some e =>
        (⟨500, "Sync target saved, but failed to start processing: " ++ e⟩, some t2)
      | none =>
        (⟨201, "\x7b\"id\":\"" ++ genId ++
          "\",\"message\":\"SyncTarget created successfully\"\x7d"⟩, some t2)

/-- C7: whenever any of the required fields (`repo_url`, `repo_branch`,
cluster-credentials blob, `manifest_path`) is empty, the handler responds
400 and never reaches persistence (the catalog is not touched); when only
`manifest_path` is missing the body is the plain-text reason
`ManifestPath is required`. -/
theorem spec_C7_validation (t : SyncTarget) (genId : String)
    (saveErr addErr : Option String)
    (hmissing : t.RepoURL = "" ∨ t.RepoBranch = "" ∨
      t.KubeConfigContent = "" ∨ t.ManifestPath = "") :
    (handleCreateSyncTarget t genId saveErr addErr).1.status = 400
    ∧ (handleCreateSyncTarget t genId saveErr addErr).2 = none
    ∧ (t.ManifestPath = "" → t.RepoURL ≠ "" → t.RepoBranch ≠ "" →
        t.KubeConfigContent ≠ "" →
        (handleCreateSyncTarget t genId saveErr addErr).1.body =
          "ManifestPath is required") := by
  by_cases h1 : t.RepoURL = ""
  · refine ⟨by simp [handleCreateSyncTarget, h1], by simp [handleCreateSyncTarget, h1], ?_⟩
    intro _ hcontra
    exact absurd h1 hcontra
  · by_cases h2 : t.RepoBranch = ""
    · refine ⟨by simp [handleCreateSyncTarget, h1, h2],
        by simp [handleCreateSyncTarget, h1, h2], ?_⟩
      intro _ _ hcontra
      exact absurd h2 hcontra
    · by_cases h3 : t.KubeConfigContent = ""
      · refine ⟨by simp [handleCreateSyncTarget, h1, h2, h3],
          by simp [handleCreateSyncTarget, h1, h2, h3], ?_⟩
        intro _ _ _ hcontra
        exact absurd h3 hcontra
      · have h4 : t.ManifestPath = "" := by
          rcases hmissing with h | h | h | h
          · exact absurd h h1
          · exact absurd h h2
          · exact absurd h h3
          · exact h
        exact ⟨by simp [handleCreateSyncTarget, h1, h2, h3, h4],
          by simp [handleCreateSyncTarget, h1, h2, h3, h4],
          fun _ _ _ _ => by simp [handleCreateSyncTarget, h1, h2, h3, h4]⟩

/-- A request body omitting `manifest_path` only. -/
def missingPathTarget : SyncTarget :=
  ⟨"", "https://git.example/x.git", "main", "kubeconfig: apiVersion v1", 30, "", ""⟩

theorem spec_C7_validation_witness :
    (handleCreateSyncTarget missingPathTarget "uuid-1" none none).1.status = 400
    ∧ (handleCreateSyncTarget missingPathTarget "uuid-1" none none).2 = none
    ∧ (missingPathTarget.ManifestPath = "" → missingPathTarget.RepoURL ≠ "" →
        missingPathTarget.RepoBranch ≠ "" → missingPathTarget.KubeConfigContent ≠ "" →
        (handleCreateSyncTarget missingPathTarget "uuid-1" none none).1.body =
          "ManifestPath is required") :=
  spec_C7_validation missingPathTarget "uuid-1" none none (Or.inr (Or.inr (Or.inr rfl)))

/-! ### Manifest enumeration (`GitPoller.GetManifestFiles`)

The file tree below the manifest directory is modelled as an `FsEntry`;
`filepath.WalkDir` semantics: the root is visited first (skipped by
`!d.IsDir()` when it is a directory, treated as a single non-directory entry
when it is a regular file), children are then visited recursively, and a
nonexistent root surfaces the stat error which the code converts into the
manifest-directory-not-found error. -/

/-- Helper for `filepath.Ext`: the suffix of the name starting at its final dot
(`none` when the name has no dot). -/
def extAux : GoStr → Option GoStr
  | [] => none
  | '.' :: rest =>
    match extAux rest with
    | some e => some e
    | none => some ('.' :: rest)
  | _ :: rest => extAux rest

/-- Model of `filepath.Ext` with Go's empty-string-on-no-dot convention. -/
def goExt (name : GoStr) : GoStr := (extAux name).getD []

/-- The extension filter of `GetManifestFiles`:
`ext == ".yaml" || ext == ".yml"` (case-sensitive). -/
def isManifestName (n : GoStr) : Bool :=
  goExt n = ['.', 'y', 'a', 'm', 'l'] || goExt n = ['.', 'y', 'm', 'l']

/-- A node of the file tree under the manifest directory. -/
inductive FsEntry where
  | file (name : GoStr)
  | dir (name : GoStr) (entries : List FsEntry)

/-- The base name of an entry (`d.Name()`). -/
def entryName : FsEntry → GoStr
  | .file n => n
  | .dir n _ => n

mutual
/-- The `WalkDir` callback applied below the root: collect the path when the
entry is a non-directory whose name passes the extension filter, recurse into
directories. -/
def walkEntry (path : GoStr) : FsEntry → List GoStr
  | .file n => if isManifestName n then [path] else []
  | .dir _ es => walkEntries path es

def walkEntries (dirPath : GoStr) : List FsEntry → List GoStr
  | [] => []
  | c :: rest => walkEntry (dirPath ++ '/' :: entryName c) c ++ walkEntries dirPath rest
end

mutual
/-- All non-directory files in a subtree, as (full path, base name) pairs —
the reference enumeration the claim compares against. -/
def allFilesEntry (path : GoStr) : FsEntry → List (GoStr × GoStr)
  | .file n => [(path, n)]
  | .dir _ es => allFilesList path es

def allFilesList (dirPath : GoStr) : List FsEntry → List (GoStr × GoStr)
  | [] => []
  | c :: rest =>
    allFilesEntry (dirPath ++ '/' :: entryName c) c ++ allFilesList dirPath rest
end

/-- Model of `GitPoller.GetManifestFiles`, as a function of what the filesystem holds
at `<localPath>/<manifestPathInRepo>` (`none`: the path does not exist). -/
def getManifestFiles (manifestDir : GoStr) (root : Option FsEntry) :
    Except String (List GoStr) :=
  match root with
  | none => .error "manifest directory not found in repository"
  | some (.file n) => .ok (if isManifestName n then [manifestDir] else [])
  | some (.dir _ es) => .ok (walkEntries manifestDir es)

mutual
theorem walkEntry_eq_filter (path : GoStr) (e : FsEntry) :
    walkEntry path e =
      ((allFilesEntry path e).filter (fun p => isManifestName p.2)).map Prod.fst := by
  cases e with
  | file n =>
    by_cases h : isManifestName n
    · simp [walkEntry, allFilesEntry, h]
    · simp [walkEntry, allFilesEntry, h]
  | dir n es =>
    simp [walkEntry, allFilesEntry, walkEntries_eq_filter]

theorem walkEntries_eq_filter (d : GoStr) (es : List FsEntry) :
    walkEntries d es =
      ((allFilesList d es).filter (fun p => isManifestName p.2)).map Prod.fst := by
  cases es with
  | nil => simp [walkEntries, allFilesList]
  | cons c rest =>
    simp [walkEntries, allFilesList, walkEntry_eq_filter, walkEntries_eq_filter]
end

/-- C5 counterexample: the manifest sub-path `r/k8s` exists as a regular
file named `k8s` — it does not exist as a directory — yet `GetManifestFiles`
returns an empty list with no error (`WalkDir` on a file root visits just
that file), contradicting the claim that a manifest sub-path that does not
exist as a directory always fails with an error. -/
theorem spec_C5_counterexample :
    getManifestFiles ['r', '/', 'k', '8', 's'] (some (.file ['k', '8', 's'])) =
      .ok [] := rfl

/-- C5 (amended): list-manifests fails with an error when the manifest
sub-path does not exist at all; when it is a directory it returns exactly
the non-directory files beneath it (walked recursively) whose extension is
exactly `.yaml` or `.yml` compared case-sensitively — so an existing but
empty directory yields the empty list with no error; and when the sub-path
exists as a regular file no error is raised: the walk visits just that file,
which is itself listed exactly when its name passes the extension filter. -/
theorem spec_C5_list_manifests (manifestDir : GoStr) (root : Option FsEntry) :
    (root = none → getManifestFiles manifestDir root =
      .error "manifest directory not found in repository")
    ∧ (∀ name es, root = some (.dir name es) →
        getManifestFiles manifestDir root =
          .ok (((allFilesList manifestDir es).filter
            (fun p => isManifestName p.2)).map Prod.fst))
    ∧ (∀ name, root = some (.file name) →
        getManifestFiles manifestDir root =
          .ok (if isManifestName name then [manifestDir] else [])) := by
  refine ⟨?_, ?_, ?_⟩
  · rintro rfl; rfl
  · rintro name es rfl
    rw [getManifestFiles, walkEntries_eq_filter]
  · rintro name rfl; rfl

/-- The manifest directory path of the C5 witness. -/
def c5Dir : GoStr := ['k', '8', 's']

/-- The entries of the C5 witness tree: `a.yaml`, a nested directory with
`c.yml` and `d.YAML`, and `b.txt`. -/
def c5Entries : List FsEntry :=
  [.file ['a', '.', 'y', 'a', 'm', 'l'],
   .dir ['s', 'u', 'b'] [.file ['c', '.', 'y', 'm', 'l'],
                         .file ['d', '.', 'Y', 'A', 'M', 'L']],
   .file ['b', '.', 't', 'x', 't']]

theorem spec_C5_list_manifests_witness :
    getManifestFiles c5Dir (some (.dir c5Dir c5Entries)) =
      .ok (((allFilesList c5Dir c5Entries).filter
        (fun p => isManifestName p.2)).map Prod.fst) :=
  (spec_C5_list_manifests c5Dir (some (.dir c5Dir c5Entries))).2.1 c5Dir c5Entries rfl
